import Mathlib

/-
Verification of the pyclaw `Controller` run-orchestration core
(src/src/pyclaw/controller.py) against its natural-language specification.

The embedding below translates `Controller.run`, `Controller.check_validity`,
`Controller.write_F` and the output-time scheduling code into pure Lean
functions.  Machine floating-point is idealised as exact rational arithmetic
(`ℚ`); numpy's `linspace` / `ones` are embedded with their size semantics
(a negative requested size raises `ValueError`).  External collaborators
(solver, solution, persistence backend, gauge streams) are modelled as
opaque data plus an explicit event trace recording every observable side
effect `run` triggers, in program order.
-/

namespace Pyclaw

/-- Solver status dictionaries are opaque to the controller; an abstract
token suffices. -/
abbrev Status := Nat

/-- Model of the external `Solver` collaborator as consumed by
`Controller.run`:  `solverTypeOk` is `isinstance(solver, Solver)`,
`validOk`/`invalidReason` are the two components of `solver.is_valid()`,
`isSetUp` is `solver._is_set_up`, and `evolve` is the opaque
`evolve_to_time` capability mapping (current solution time, optional
target time) to (new solution time, status).  Solver-internal state such
as `dt` is invisible to the controller and omitted. -/
structure Solver where
  solverTypeOk : Bool
  validOk : Bool
  invalidReason : String
  isSetUp : Bool
  evolve : ℚ → Option ℚ → ℚ × Status

/-- Model of the `Solution` collaborator: current time `t`, resumable
`start_frame`, the two validity predicates read by `check_validity`
(`solution.is_valid()` and `all(state.is_valid() ...)`), and the list of
gauge identifiers declared on the grid. -/
structure Solution where
  t : ℚ
  start_frame : ℕ
  validOk : Bool
  statesValid : Bool
  gauges : List ℕ

/-- Observable side effects of `Controller.run`, in program order.
`writeSolution` records a `solution.write` call (frame, path, file
prefix argument, write_aux flag, write_p flag); `writeF` records a
functional-log write with its file mode character. -/
inductive Event where
  | setupGaugeFiles (dir : String)
  | solverSetup
  | writeGaugeValues
  | printMsg (msg : String)
  | appendFrame (t : ℚ)
  | writeSolution (frame : ℕ) (path : String) (filePfx : Option String)
      (writeAux : Bool) (writeP : Bool)
  | writeF (mode : Char) (t : ℚ) (vals : List ℚ)
  | logInfo (frame : ℕ) (t : ℚ)
  | evolve (target : Option ℚ) (status : Status)
  | frameIncrement
  | gaugeFlush (g : ℕ)
  | gaugeClose (g : ℕ)
  deriving DecidableEq, Inhabited

/-- Exceptions `Controller.run` can raise, one constructor per distinct
`raise` site (plus numpy's `ValueError` for negative array sizes and the
`NameError` triggered by `return status` when `status` was never bound). -/
inductive RunError where
  | noSolverOrSolution
  | noSolverSet
  | solverWrongType
  | solverInvalid (reason : String)
  | solutionInvalid
  | statesInvalid
  | invalidOutputStyle (style : ℤ)
  | numpyValueError
  | refusingOverwrite
  | nameErrorStatus
  deriving DecidableEq

/-- Controller configuration fields read by `run` / `check_validity` /
`write_F`.  `outdirExists` embeds `os.path.exists(self.outdir)` at entry;
`computeP` records whether `compute_p` is configured; `computeF` is the
composite functional collaborator (`compute_F` followed by the `sum_F`
reductions), as a function of the solution time; `filePfxP` is
`file_prefix_p` and `outputFilePfx` is `output_file_prefix` (renamed).
Retained snapshots (`frames`) are deep copies of the solution at capture
time; the capture-time value is what the embedding keeps of each copy. -/
structure Controller where
  solver : Option Solver
  solution : Option Solution
  tfinal : ℚ
  output_style : ℤ
  num_output_times : ℤ
  out_times : List ℚ
  nstepout : ℕ
  keep_copy : Bool
  frames : List ℚ
  output_handler : Option String
  output_format : Option String
  output_clobber : Bool
  outdir : String
  outdirExists : Bool
  write_aux_init : Bool
  write_aux_always : Bool
  computeP : Bool
  computeF : Option (ℚ → List ℚ)
  filePfxP : String
  outputFilePfx : Option String
  F_file_name : String

/-- Property `outdir_p` (controller.py line 76): directory for derived
quantity files, `os.path.join(self.outdir, '_p')`. -/
def Controller.outdir_p (c : Controller) : String := c.outdir ++ "/_p"

/-- Property `F_path` (controller.py line 80): full path of the
functional log. -/
def Controller.F_path (c : Controller) : String :=
  c.outdir ++ "/" ++ c.F_file_name ++ ".txt"

/-- numpy `linspace(a, b, num)` over exact rationals: `num` evenly spaced
points from `a` to `b` inclusive; `num = 1` gives `[a]`, `num = 0` the
empty array, negative `num` raises `ValueError`. -/
def linspace (a b : ℚ) (num : ℤ) : Except RunError (List ℚ) :=
  if num < 0 then .error .numpyValueError
  else if num = 1 then .ok [a]
  else .ok ((List.range num.toNat).map fun i : ℕ =>
    a + (i : ℚ) * (b - a) / ((num.toNat : ℚ) - 1))

/-- numpy `ones(n)`: `n` placeholder entries, `ValueError` on negative
`n` (used by output style 3). -/
def numpyOnes (n : ℤ) : Except RunError (List ℚ) :=
  if n < 0 then .error .numpyValueError
  else .ok (List.replicate n.toNat 1)

/-- Output-time scheduling, controller.py lines 318-327: style 1 is
`linspace(solution.t, tfinal, num_output_times+1)`, style 2 the verbatim
`out_times` list, style 3 `ones(num_output_times+1-start_frame)`, any
other style an exception. -/
def outputTimes (c : Controller) (sol : Solution) : Except RunError (List ℚ) :=
  if c.output_style = 1 then
    linspace sol.t c.tfinal (c.num_output_times + 1)
  else if c.output_style = 2 then .ok c.out_times
  else if c.output_style = 3 then
    numpyOnes (c.num_output_times + 1 - (sol.start_frame : ℤ))
  else .error (.invalidOutputStyle c.output_style)

/-- `Controller.check_validity`, controller.py lines 221-239: solver is
present, of the right type and self-reportedly valid; solution and all
its states are valid. -/
def check_validity (c : Controller) (sol : Solution) : Except RunError Unit :=
  match c.solver with
  | none => .error .noSolverSet
  | some solver =>
    if solver.solverTypeOk = false then .error .solverWrongType
    else if solver.validOk = false then .error (.solverInvalid solver.invalidReason)
    else if sol.validOk = false then .error .solutionInvalid
    else if sol.statesValid = false then .error .statesInvalid
    else .ok ()

/-- `Controller.write_F`, controller.py lines 424-434: when `compute_F`
is configured, compute the functionals at the current time and write one
line to the functional log, opened with the given mode character
(`is_proc_0` is hard-coded `True`).  Returns the new log contents and the
emitted events. -/
def write_F (c : Controller) (t : ℚ) (mode : Char)
    (flog : List (ℚ × List ℚ)) : List (ℚ × List ℚ) × List Event :=
  match c.computeF with
  | none => (flog, [])
  | some f =>
    ((if mode = 'w' then [(t, f t)] else flog ++ [(t, f t)]),
      [Event.writeF mode t (f t)])

/-- The grid's `gauge_files` list after the entry phase of `run`: gauge
files are opened by `setup_gauge_files` only when gauges are declared
(controller.py lines 302-303); otherwise the list stays empty. -/
def gaugeFilesOf (sol : Solution) : List ℕ :=
  if sol.gauges.length > 0 then sol.gauges else []

/-- Events of the entry phase of `run` before `check_validity`
(controller.py lines 301-310): gauge-file setup when gauges exist, then
lazy solver setup when the solver is not yet set up. -/
def preEvents (c : Controller) (solver : Solver) (sol : Solution) : List Event :=
  (if sol.gauges.length > 0 then [Event.setupGaugeFiles c.outdir] else []) ++
  (if solver.isSetUp = false then [Event.solverSetup] else [])

/-- The initial-frame output block, controller.py lines 339-366: skipped
entirely when the output handler or format is `None`; otherwise refuses
to overwrite an existing output directory when clobber is disabled, else
writes the derived-quantity frame to `outdir_p` (when `compute_p` is
configured) and the main frame to `outdir`. -/
def initialWrites (c : Controller) (frame : ℕ) : Except RunError (List Event) :=
  if c.output_handler = none ∨ c.output_format = none then .ok []
  else if c.outdirExists = true ∧ c.output_clobber = false then
    .error .refusingOverwrite
  else .ok
    ((if c.computeP then
        [Event.writeSolution frame c.outdir_p (some c.filePfxP) false true]
      else []) ++
     [Event.writeSolution frame c.outdir c.outputFilePfx
        (c.write_aux_always || c.write_aux_init) false])

/-- The per-iteration output block, controller.py lines 384-407: skipped
when output is disabled; otherwise the derived-quantity write (note: the
source passes `path = self.outdir` here, lines 389-390) followed by the
main write to `outdir`. -/
def loopWrites (c : Controller) (frame : ℕ) : List Event :=
  if c.output_handler = none ∨ c.output_format = none then []
  else
    (if c.computeP then
       [Event.writeSolution frame c.outdir (some c.filePfxP) false true]
     else []) ++
    [Event.writeSolution frame c.outdir c.outputFilePfx c.write_aux_always false]

/-- The inner style-3 loop, controller.py lines 377-379:
`for n in xrange(self.nstepout): status = self.solver.evolve_to_time(self.solution)`.
Threads (solution time, bound-or-not status) and emits one evolve event
per step. -/
def nstepLoop (solver : Solver) :
    ℕ → ℚ × Option Status → (ℚ × Option Status) × List Event
  | 0, p => (p, [])
  | n + 1, p =>
    let r := solver.evolve p.1 none
    let rest := nstepLoop solver n (r.1, some r.2)
    (rest.1, Event.evolve none r.2 :: rest.2)

/-- State threaded through the run loop: solution time, frame counter,
retained snapshot list, functional-log contents, and the `status` local
variable (`none` while still unbound). -/
structure LoopCore where
  t : ℚ
  frame : ℕ
  frames : List ℚ
  flog : List (ℚ × List ℚ)
  status : Option Status
  deriving DecidableEq

/-- One iteration of the run loop, controller.py lines 373-413: evolve
(one targeted call for styles 1-2, `nstepout` untargeted calls for style
3), increment the frame counter, optionally retain a snapshot, output,
append one functional-log line, log progress, flush every open gauge
stream. -/
def loopBody (c : Controller) (solver : Solver) (gaugeFiles : List ℕ)
    (s : LoopCore) (target : ℚ) : LoopCore × List Event :=
  let e :=
    if c.output_style < 3 then
      let r := solver.evolve s.t (some target)
      ((r.1, some r.2), [Event.evolve (some target) r.2])
    else nstepLoop solver c.nstepout (s.t, s.status)
  let t1 := e.1.1
  let frame1 := s.frame + 1
  let frames1 := if c.keep_copy then s.frames ++ [t1] else s.frames
  let keepEvs : List Event := if c.keep_copy then [Event.appendFrame t1] else []
  let fr := write_F c t1 'a' s.flog
  ({ t := t1, frame := frame1, frames := frames1, flog := fr.1, status := e.1.2 },
   e.2 ++ [Event.frameIncrement] ++ keepEvs ++ loopWrites c frame1 ++ fr.2 ++
     [Event.logInfo frame1 t1] ++ gaugeFiles.map Event.gaugeFlush)

/-- The run loop over `output_times[1:]`, controller.py line 373. -/
def runLoop (c : Controller) (solver : Solver) (gaugeFiles : List ℕ) :
    LoopCore → List ℚ → LoopCore × List Event
  | s, [] => (s, [])
  | s, t :: ts =>
    let r := loopBody c solver gaugeFiles s t
    let rest := runLoop c solver gaugeFiles r.1 ts
    (rest.1, r.2 ++ rest.2)

instance {ε α : Type} [DecidableEq ε] [DecidableEq α] : DecidableEq (Except ε α) :=
  fun x y =>
    match x, y with
    | .ok a, .ok b =>
      if h : a = b then .isTrue (by rw [h]) else .isFalse (by simp [h])
    | .error a, .error b =>
      if h : a = b then .isTrue (by rw [h]) else .isFalse (by simp [h])
    | .ok _, .error _ => .isFalse (by simp)
    | .error _, .ok _ => .isFalse (by simp)

/-- Result of a `run` call: the returned value or raised exception, the
event trace, the final retained-snapshot list, the final functional-log
contents, and the `_start_frame` value recorded on the solution (set only
once line 417 is reached). -/
structure RunResult where
  outcome : Except RunError (Option Status)
  trace : List Event
  frames : List ℚ
  flog : List (ℚ × List ℚ)
  finalStartFrame : Option ℕ
  deriving DecidableEq

/-- The value of `return status` (controller.py line 420): the solver
status when the local variable was bound by some evolution call, and a
`NameError` when the loop body never bound it. -/
def statusOutcome : Option Status → Except RunError (Option Status)
  | some st => .ok (some st)
  | none => .error .nameErrorStatus

/-- `Controller.run`, controller.py lines 281-420, as a function of the
configuration and the pre-existing functional-log contents `flog0`. -/
def run (c : Controller) (flog0 : List (ℚ × List ℚ)) : RunResult :=
  match c.solver, c.solution with
  | none, _ => ⟨.error .noSolverOrSolution, [], c.frames, flog0, none⟩
  | some _, none => ⟨.error .noSolverOrSolution, [], c.frames, flog0, none⟩
  | some solver, some sol =>
    let gaugeFiles := gaugeFilesOf sol
    let frame := sol.start_frame
    let pre := preEvents c solver sol
    match check_validity c sol with
    | .error e => ⟨.error e, pre, c.frames, flog0, none⟩
    | .ok _ =>
      let pre2 := pre ++ [Event.writeGaugeValues]
      match outputTimes c sol with
      | .error e => ⟨.error e, pre2, c.frames, flog0, none⟩
      | .ok output_times =>
        if output_times.length = 0 then
          ⟨.ok none,
            pre2 ++ [Event.printMsg "No valid output times; halting."] ++
              (if sol.t = c.tfinal then
                [Event.printMsg "Simulation has already reached tfinal."]
              else []),
            c.frames, flog0, none⟩
        else
          let frames1 := if c.keep_copy then c.frames ++ [sol.t] else c.frames
          let keepEvs : List Event :=
            if c.keep_copy then [Event.appendFrame sol.t] else []
          match initialWrites c frame with
          | .error e => ⟨.error e, pre2 ++ keepEvs, frames1, flog0, none⟩
          | .ok outEvs =>
            let fr := write_F c sol.t 'w' flog0
            let lr := runLoop c solver gaugeFiles
              ⟨sol.t, frame, frames1, fr.1, none⟩ (output_times.drop 1)
            let tr := pre2 ++ keepEvs ++ outEvs ++ fr.2 ++
              [Event.logInfo frame sol.t] ++ lr.2 ++
              gaugeFiles.map Event.gaugeClose
            ⟨statusOutcome lr.1.status, tr, lr.1.frames, lr.1.flog,
              some lr.1.frames.length⟩

/-! Event classification helpers used by the trace properties. -/

/-- Event is an evolution call. -/
def Event.isEvolve : Event → Bool
  | .evolve _ _ => true
  | _ => false

/-- Event is a progress-log line, emitted exactly once per produced
output point. -/
def Event.isLogInfo : Event → Bool
  | .logInfo _ _ => true
  | _ => false

/-- Event is a gauge-stream flush. -/
def Event.isFlush : Event → Bool
  | .gaugeFlush _ => true
  | _ => false

/-- Event is a gauge-stream close. -/
def Event.isClose : Event → Bool
  | .gaugeClose _ => true
  | _ => false

/-- Event is a `solution.write` call (main or derived-quantity output). -/
def Event.isWriteSolution : Event → Bool
  | .writeSolution _ _ _ _ _ => true
  | _ => false

/-- Event is a functional-log write. -/
def Event.isWriteF : Event → Bool
  | .writeF _ _ _ => true
  | _ => false

/-- Event is a retained-snapshot append. -/
def Event.isAppendFrame : Event → Bool
  | .appendFrame _ => true
  | _ => false

/-- Event is a frame-counter increment. -/
def Event.isFrameIncrement : Event → Bool
  | .frameIncrement => true
  | _ => false

/-- Temporal check for the gauge-flush discipline: every produced output
point (marked by its progress-log event) is followed by a gauge-stream
flush before any further evolution call occurs. -/
def flushAfterEachOutput : List Event → Bool
  | [] => true
  | e :: rest =>
    ((!e.isLogInfo) || ((rest.takeWhile fun x => !x.isEvolve).any Event.isFlush)) &&
      flushAfterEachOutput rest

/-- Drop the trace segment before the first evolution call. -/
def dropToFirstEvolve (tr : List Event) : List Event :=
  tr.dropWhile fun e => !e.isEvolve

/-- Status carried by the last evolution event of a trace, if any. -/
def lastEvolveStatus : List Event → Option Status
  | [] => none
  | .evolve _ st :: rest => some ((lastEvolveStatus rest).getD st)
  | _ :: rest => lastEvolveStatus rest

/-- Value of the `status` local variable after executing the events
`evs` starting from binding state `s0`. -/
def statusAfter (evs : List Event) (s0 : Option Status) : Option Status :=
  match lastEvolveStatus evs with
  | some s => some s
  | none => s0

/-! Concrete fixtures used by witnesses and counterexamples.  The solver
jumps straight to the requested target time and reports status 7; the
base configuration uses output style 2 with the explicit schedule
`[0, 1]` so that every concrete run is computable by `decide`. -/

/-- A benign, already-set-up solver. -/
def solverEx : Solver :=
  { solverTypeOk := true, validOk := true, invalidReason := "", isSetUp := true,
    evolve := fun _ tgt => (tgt.getD 0, 7) }

/-- A solver that fails the `isinstance` check and is not yet set up. -/
def solverBad : Solver :=
  { solverTypeOk := false, validOk := true, invalidReason := "", isSetUp := false,
    evolve := fun _ _ => (0, 0) }

/-- A fresh valid solution without gauges. -/
def solEx : Solution :=
  { t := 0, start_frame := 0, validOk := true, statesValid := true, gauges := [] }

/-- A fresh valid solution with one gauge. -/
def solExG : Solution :=
  { t := 0, start_frame := 0, validOk := true, statesValid := true, gauges := [0] }

/-- A solution resumed at start frame 1, current time 5. -/
def solExR : Solution :=
  { t := 5, start_frame := 1, validOk := true, statesValid := true, gauges := [] }

/-- Base configuration: style 2, schedule `[0, 1]`, output enabled,
clobber allowed, fresh output directory. -/
def ctrlBase : Controller :=
  { solver := some solverEx, solution := some solEx, tfinal := 1,
    output_style := 2, num_output_times := 10, out_times := [0, 1],
    nstepout := 1, keep_copy := false, frames := [],
    output_handler := some "pyclaw", output_format := some "ascii",
    output_clobber := true, outdir := "_output", outdirExists := false,
    write_aux_init := false, write_aux_always := false, computeP := false,
    computeF := none, filePfxP := "claw_p", outputFilePfx := none,
    F_file_name := "F" }

/-- Style 1 (fixed count over interval) with the default `N = 10`. -/
def ctrlC1 : Controller := { ctrlBase with output_style := 1 }

/-- Output conflict on a gauged run: one gauge, output directory exists,
clobber disabled. -/
def ctrlC3g : Controller :=
  { ctrlBase with
    solution := some solExG, outdirExists := true, output_clobber := false }

/-- Empty explicit schedule. -/
def ctrlC2 : Controller := { ctrlBase with out_times := [] }

/-- Output directory exists, clobber disabled. -/
def ctrlC3 : Controller :=
  { ctrlBase with outdirExists := true, output_clobber := false }

/-- Same conflict but with output disabled via a `None` handler. -/
def ctrlC3dis : Controller := { ctrlC3 with output_handler := none }

/-- One gauge, output disabled, two scheduled times. -/
def ctrlC4 : Controller :=
  { ctrlBase with solution := some solExG, output_handler := none }

/-- One gauge, output enabled, two scheduled times. -/
def ctrlC5 : Controller := { ctrlBase with solution := some solExG }

/-- One gauge, empty schedule. -/
def ctrlC5e : Controller :=
  { ctrlBase with solution := some solExG, out_times := [] }

/-- One gauge, output conflict. -/
def ctrlC5c : Controller :=
  { ctrlBase with
    solution := some solExG, outdirExists := true, output_clobber := false }

/-- Derived-quantity capability configured, output enabled. -/
def ctrlC6 : Controller := { ctrlBase with computeP := true }

/-- Functional capability configured, resumed solution (start frame 1),
schedule `[5, 6]`. -/
def ctrlC7 : Controller :=
  { ctrlBase with
    solution := some solExR, out_times := [5, 6],
    computeF := some fun t => [t] }

/-- Invalid solver (wrong type, not set up) over a gauged solution. -/
def ctrlC8 : Controller :=
  { ctrlBase with solver := some solverBad, solution := some solExG }

/-- Style 1 with `num_output_times = 0`: a one-entry schedule. -/
def ctrlC10 : Controller :=
  { ctrlBase with output_style := 1, num_output_times := 0 }

/-- The loop state at entry of the run loop on the success path: the
initial output point has been produced and the functional log truncated
or extended by `write_F(..., 'w')`. -/
def initialLoopState (c : Controller) (sol : Solution)
    (flog0 : List (ℚ × List ℚ)) : LoopCore :=
  ⟨sol.t, sol.start_frame,
    (if c.keep_copy then c.frames ++ [sol.t] else c.frames),
    (write_F c sol.t 'w' flog0).1, none⟩

/-- Final loop state and loop events of a success-path run. -/
def loopResult (c : Controller) (solver : Solver) (sol : Solution)
    (flog0 : List (ℚ × List ℚ)) (ts : List ℚ) : LoopCore × List Event :=
  runLoop c solver (gaugeFilesOf sol) (initialLoopState c sol flog0) ts

/-- All events of a success-path run up to and including the initial
output point's progress-log line. -/
def initSegment (c : Controller) (solver : Solver) (sol : Solution)
    (outEvs : List Event) (flog0 : List (ℚ × List ℚ)) : List Event :=
  preEvents c solver sol ++ [Event.writeGaugeValues] ++
    (if c.keep_copy then [Event.appendFrame sol.t] else []) ++ outEvs ++
    (write_F c sol.t 'w' flog0).2 ++ [Event.logInfo sol.start_frame sol.t]

/-! Path lemmas: closed forms of `run` on each of its control paths. -/

/-- Entry failure: a missing solver or solution raises before anything
happens (controller.py lines 298-299). -/
theorem run_none_eq (c : Controller) (flog0 : List (ℚ × List ℚ))
    (h : c.solver = none ∨ c.solution = none) :
    run c flog0 = ⟨.error .noSolverOrSolution, [], c.frames, flog0, none⟩ := by
  rcases h with h | h
  · simp [run, h]
  · rcases hs : c.solver with _ | s <;> simp [run, h, hs]

/-- Validation failure path: `check_validity` raises after the entry
phase (controller.py line 312). -/
theorem run_invalid_eq (c : Controller) (solver : Solver) (sol : Solution)
    (flog0 : List (ℚ × List ℚ)) (err : RunError)
    (hs : c.solver = some solver) (hl : c.solution = some sol)
    (hv : check_validity c sol = .error err) :
    run c flog0 = ⟨.error err, preEvents c solver sol, c.frames, flog0, none⟩ := by
  simp [run, hs, hl, hv]

/-- Scheduling failure path: an invalid output style or a negative numpy
size raises after the initial gauge write (controller.py lines 318-327). -/
theorem run_badtimes_eq (c : Controller) (solver : Solver) (sol : Solution)
    (flog0 : List (ℚ × List ℚ)) (err : RunError)
    (hs : c.solver = some solver) (hl : c.solution = some sol)
    (hv : check_validity c sol = .ok ())
    (hot : outputTimes c sol = .error err) :
    run c flog0 =
      ⟨.error err, preEvents c solver sol ++ [Event.writeGaugeValues],
        c.frames, flog0, none⟩ := by
  simp [run, hs, hl, hv, hot]

/-- Empty-schedule halt (controller.py lines 329-333): report, possibly
note that `tfinal` is already reached, and return `None`. -/
theorem run_empty_eq (c : Controller) (solver : Solver) (sol : Solution)
    (flog0 : List (ℚ × List ℚ))
    (hs : c.solver = some solver) (hl : c.solution = some sol)
    (hv : check_validity c sol = .ok ())
    (hot : outputTimes c sol = .ok []) :
    run c flog0 =
      ⟨.ok none,
        preEvents c solver sol ++ [Event.writeGaugeValues] ++
          [Event.printMsg "No valid output times; halting."] ++
          (if sol.t = c.tfinal then
            [Event.printMsg "Simulation has already reached tfinal."]
          else []),
        c.frames, flog0, none⟩ := by
  simp [run, hs, hl, hv, hot]

/-- Output-conflict path (controller.py lines 342-344): with output
enabled, an existing output directory and clobber disabled, the initial
output block raises; the retained-snapshot append of line 337 has already
happened. -/
theorem run_clobber_eq (c : Controller) (solver : Solver) (sol : Solution)
    (flog0 : List (ℚ × List ℚ)) (t0 : ℚ) (ts : List ℚ) (err : RunError)
    (hs : c.solver = some solver) (hl : c.solution = some sol)
    (hv : check_validity c sol = .ok ())
    (hot : outputTimes c sol = .ok (t0 :: ts))
    (hiw : initialWrites c sol.start_frame = .error err) :
    run c flog0 =
      ⟨.error err,
        preEvents c solver sol ++ [Event.writeGaugeValues] ++
          (if c.keep_copy then [Event.appendFrame sol.t] else []),
        (if c.keep_copy then c.frames ++ [sol.t] else c.frames), flog0, none⟩ := by
  simp [run, hs, hl, hv, hot, hiw]

/-- Main path: with a nonempty schedule and a successful initial output
block, `run` performs the initial output, the loop over the remaining
target times, and the final gauge close / start-frame update, returning
`statusOutcome` of the final `status` binding. -/
theorem run_success_eq (c : Controller) (solver : Solver) (sol : Solution)
    (flog0 : List (ℚ × List ℚ)) (t0 : ℚ) (ts : List ℚ) (outEvs : List Event)
    (hs : c.solver = some solver) (hl : c.solution = some sol)
    (hv : check_validity c sol = .ok ())
    (hot : outputTimes c sol = .ok (t0 :: ts))
    (hiw : initialWrites c sol.start_frame = .ok outEvs) :
    run c flog0 =
      ⟨statusOutcome (runLoop c solver (gaugeFilesOf sol)
          ⟨sol.t, sol.start_frame,
            (if c.keep_copy then c.frames ++ [sol.t] else c.frames),
            (write_F c sol.t 'w' flog0).1, none⟩ ts).1.status,
        preEvents c solver sol ++ [Event.writeGaugeValues] ++
          (if c.keep_copy then [Event.appendFrame sol.t] else []) ++ outEvs ++
          (write_F c sol.t 'w' flog0).2 ++
          [Event.logInfo sol.start_frame sol.t] ++
          (runLoop c solver (gaugeFilesOf sol)
            ⟨sol.t, sol.start_frame,
              (if c.keep_copy then c.frames ++ [sol.t] else c.frames),
              (write_F c sol.t 'w' flog0).1, none⟩ ts).2 ++
          (gaugeFilesOf sol).map Event.gaugeClose,
        (runLoop c solver (gaugeFilesOf sol)
          ⟨sol.t, sol.start_frame,
            (if c.keep_copy then c.frames ++ [sol.t] else c.frames),
            (write_F c sol.t 'w' flog0).1, none⟩ ts).1.frames,
        (runLoop c solver (gaugeFilesOf sol)
          ⟨sol.t, sol.start_frame,
            (if c.keep_copy then c.frames ++ [sol.t] else c.frames),
            (write_F c sol.t 'w' flog0).1, none⟩ ts).1.flog,
        some (runLoop c solver (gaugeFilesOf sol)
          ⟨sol.t, sol.start_frame,
            (if c.keep_copy then c.frames ++ [sol.t] else c.frames),
            (write_F c sol.t 'w' flog0).1, none⟩ ts).1.frames.length⟩ := by
  simp [run, hs, hl, hv, hot, hiw]

/-- Trace of a success-path run: initial segment, loop events, closes. -/
theorem run_success_trace (c : Controller) (solver : Solver) (sol : Solution)
    (flog0 : List (ℚ × List ℚ)) (t0 : ℚ) (ts : List ℚ) (outEvs : List Event)
    (hs : c.solver = some solver) (hl : c.solution = some sol)
    (hv : check_validity c sol = .ok ())
    (hot : outputTimes c sol = .ok (t0 :: ts))
    (hiw : initialWrites c sol.start_frame = .ok outEvs) :
    (run c flog0).trace =
      initSegment c solver sol outEvs flog0 ++
        (loopResult c solver sol flog0 ts).2 ++
        (gaugeFilesOf sol).map Event.gaugeClose := by
  rw [run_success_eq c solver sol flog0 t0 ts outEvs hs hl hv hot hiw]
  simp [initSegment, loopResult, initialLoopState, List.append_assoc]

/-- Returned value of a success-path run. -/
theorem run_success_outcome (c : Controller) (solver : Solver) (sol : Solution)
    (flog0 : List (ℚ × List ℚ)) (t0 : ℚ) (ts : List ℚ) (outEvs : List Event)
    (hs : c.solver = some solver) (hl : c.solution = some sol)
    (hv : check_validity c sol = .ok ())
    (hot : outputTimes c sol = .ok (t0 :: ts))
    (hiw : initialWrites c sol.start_frame = .ok outEvs) :
    (run c flog0).outcome =
      statusOutcome (loopResult c solver sol flog0 ts).1.status := by
  rw [run_success_eq c solver sol flog0 t0 ts outEvs hs hl hv hot hiw]
  simp [loopResult, initialLoopState]

/-- Final functional-log contents of a success-path run. -/
theorem run_success_flog (c : Controller) (solver : Solver) (sol : Solution)
    (flog0 : List (ℚ × List ℚ)) (t0 : ℚ) (ts : List ℚ) (outEvs : List Event)
    (hs : c.solver = some solver) (hl : c.solution = some sol)
    (hv : check_validity c sol = .ok ())
    (hot : outputTimes c sol = .ok (t0 :: ts))
    (hiw : initialWrites c sol.start_frame = .ok outEvs) :
    (run c flog0).flog = (loopResult c solver sol flog0 ts).1.flog := by
  rw [run_success_eq c solver sol flog0 t0 ts outEvs hs hl hv hot hiw]
  simp [loopResult, initialLoopState]

/-! Classification of the events each phase can emit. -/

/-- Entry-phase events are gauge-file setup or solver setup only. -/
theorem preEvents_mem (c : Controller) (solver : Solver) (sol : Solution) :
    ∀ e ∈ preEvents c solver sol,
      e = Event.setupGaugeFiles c.outdir ∨ e = Event.solverSetup := by
  intro e he
  unfold preEvents at he
  rcases List.mem_append.1 he with h | h <;> split at h <;> simp_all

/-- A successful initial output block emits `solution.write` events only. -/
theorem initialWrites_mem (c : Controller) (f : ℕ) (evs : List Event)
    (h : initialWrites c f = .ok evs) :
    ∀ e ∈ evs, ∃ p pf wa wp, e = Event.writeSolution f p pf wa wp := by
  unfold initialWrites at h
  split at h
  · cases h
    simp
  · split at h
    · cases h
    · cases h
      intro e he
      rcases List.mem_append.1 he with h | h
      · split at h <;> simp_all
      · simp_all

/-- The per-iteration output block emits `solution.write` events only. -/
theorem loopWrites_mem (c : Controller) (f : ℕ) :
    ∀ e ∈ loopWrites c f, ∃ p pf wa wp, e = Event.writeSolution f p pf wa wp := by
  intro e he
  unfold loopWrites at he
  split at he
  · simp at he
  · rcases List.mem_append.1 he with h | h
    · split at h <;> simp_all
    · simp_all

/-- `write_F` emits functional-log write events only. -/
theorem write_F_mem (c : Controller) (t : ℚ) (m : Char)
    (fl : List (ℚ × List ℚ)) :
    ∀ e ∈ (write_F c t m fl).2, ∃ v, e = Event.writeF m t v := by
  unfold write_F
  split <;> simp

/-- The style-3 inner loop emits untargeted evolve events only. -/
theorem nstepLoop_mem (solver : Solver) (n : ℕ) (p : ℚ × Option Status) :
    ∀ e ∈ (nstepLoop solver n p).2, ∃ st, e = Event.evolve none st := by
  induction n generalizing p with
  | zero => simp [nstepLoop]
  | succ n ih =>
    intro e he
    simp only [nstepLoop, List.mem_cons] at he
    rcases he with rfl | he
    · exact ⟨_, rfl⟩
    · exact ih _ e he

/-- Every event up to the initial output point's log line is neither an
evolution, nor a close, nor a console print. -/
theorem initSegment_mem (c : Controller) (solver : Solver) (sol : Solution)
    (outEvs : List Event) (hiw : initialWrites c sol.start_frame = .ok outEvs)
    (flog0 : List (ℚ × List ℚ)) :
    ∀ e ∈ initSegment c solver sol outEvs flog0,
      e.isEvolve = false ∧ e.isClose = false ∧ ∀ m, e ≠ Event.printMsg m := by
  intro e he
  unfold initSegment at he
  simp only [List.append_assoc, List.mem_append, List.mem_singleton] at he
  rcases he with he | rfl | he | he | he | rfl
  · rcases preEvents_mem c solver sol e he with rfl | rfl <;>
      simp [Event.isEvolve, Event.isClose]
  · simp [Event.isEvolve, Event.isClose]
  · split at he
    · simp only [List.mem_singleton] at he
      subst he
      simp [Event.isEvolve, Event.isClose]
    · simp at he
  · obtain ⟨p, pf, wa, wp, rfl⟩ := initialWrites_mem c sol.start_frame outEvs hiw e he
    simp [Event.isEvolve, Event.isClose]
  · obtain ⟨v, rfl⟩ := write_F_mem c sol.t 'w' flog0 e he
    simp [Event.isEvolve, Event.isClose]
  · simp [Event.isEvolve, Event.isClose]

/-! Lemmas about the gauge-flush discipline check. -/

theorem flushAfterEachOutput_cons (e : Event) (l : List Event) :
    flushAfterEachOutput (e :: l) =
      (((!e.isLogInfo) ||
          ((l.takeWhile fun x => !x.isEvolve).any Event.isFlush)) &&
        flushAfterEachOutput l) := rfl

/-- A flush found before the next evolve survives appending further
events to the trace. -/
theorem any_flush_takeWhile_append (a b : List Event)
    (h : ((a.takeWhile fun x => !x.isEvolve).any Event.isFlush) = true) :
    (((a ++ b).takeWhile fun x => !x.isEvolve).any Event.isFlush) = true := by
  induction a with
  | nil => simp at h
  | cons x xs ih =>
    rw [List.cons_append, List.takeWhile_cons] at *
    by_cases hx : (!x.isEvolve) = true
    · simp only [hx, if_true, List.any_cons, Bool.or_eq_true] at h ⊢
      rcases h with h | h
      · exact Or.inl h
      · exact Or.inr (ih h)
    · simp only [hx] at h
      simp at hx
      simp [hx] at h

theorem flushAfterEachOutput_append (a b : List Event)
    (ha : flushAfterEachOutput a = true) (hb : flushAfterEachOutput b = true) :
    flushAfterEachOutput (a ++ b) = true := by
  induction a with
  | nil => simpa
  | cons x xs ih =>
    rw [List.cons_append, flushAfterEachOutput_cons]
    rw [flushAfterEachOutput_cons, Bool.and_eq_true] at ha
    simp only [Bool.and_eq_true, Bool.or_eq_true] at ha ⊢
    refine ⟨?_, ih ha.2⟩
    rcases ha.1 with h | h
    · exact Or.inl h
    · exact Or.inr (any_flush_takeWhile_append _ _ h)

theorem flushAfterEachOutput_append_false (a b : List Event)
    (hb : flushAfterEachOutput b = false) :
    flushAfterEachOutput (a ++ b) = false := by
  induction a with
  | nil => simpa
  | cons x xs ih =>
    rw [List.cons_append, flushAfterEachOutput_cons, ih, Bool.and_false]

theorem flushAfterEachOutput_cons_of_not_logInfo (e : Event) (l : List Event)
    (he : e.isLogInfo = false) :
    flushAfterEachOutput (e :: l) = flushAfterEachOutput l := by
  simp [flushAfterEachOutput_cons, he]

theorem flushAfterEachOutput_of_no_logInfo (l : List Event)
    (h : ∀ e ∈ l, e.isLogInfo = false) :
    flushAfterEachOutput l = true := by
  induction l with
  | nil => rfl
  | cons x xs ih =>
    rw [flushAfterEachOutput_cons_of_not_logInfo x xs (h x (by simp))]
    exact ih fun e he => h e (List.mem_cons_of_mem _ he)

theorem flushAfterEachOutput_append_of_no_logInfo (a b : List Event)
    (h : ∀ e ∈ a, e.isLogInfo = false) :
    flushAfterEachOutput (a ++ b) = flushAfterEachOutput b := by
  induction a with
  | nil => rfl
  | cons x xs ih =>
    rw [List.cons_append,
      flushAfterEachOutput_cons_of_not_logInfo x _ (h x (by simp))]
    exact ih fun e he => h e (List.mem_cons_of_mem _ he)

/-- An output point directly followed by an evolution violates the
flush discipline. -/
theorem flushAfterEachOutput_logInfo_evolve (f : ℕ) (t : ℚ) (tgt : Option ℚ)
    (st : Status) (l : List Event) :
    flushAfterEachOutput (Event.logInfo f t :: Event.evolve tgt st :: l) =
      false := by
  rw [flushAfterEachOutput_cons]
  simp [Event.isLogInfo, List.takeWhile_cons, Event.isEvolve]

/-! Lemmas about `dropToFirstEvolve`. -/

theorem dropToFirstEvolve_append_of_no_evolve (a b : List Event)
    (h : ∀ e ∈ a, e.isEvolve = false) :
    dropToFirstEvolve (a ++ b) = dropToFirstEvolve b := by
  induction a with
  | nil => rfl
  | cons x xs ih =>
    have hx : x.isEvolve = false := h x (by simp)
    rw [List.cons_append]
    unfold dropToFirstEvolve at *
    rw [List.dropWhile_cons]
    simp only [hx, Bool.not_false, if_true]
    exact ih fun e he => h e (List.mem_cons_of_mem _ he)

theorem dropToFirstEvolve_cons_evolve (tgt : Option ℚ) (st : Status)
    (l : List Event) :
    dropToFirstEvolve (Event.evolve tgt st :: l) = Event.evolve tgt st :: l := by
  simp [dropToFirstEvolve, List.dropWhile_cons, Event.isEvolve]

theorem dropToFirstEvolve_of_no_evolve (l : List Event)
    (h : ∀ e ∈ l, e.isEvolve = false) : dropToFirstEvolve l = [] := by
  have := dropToFirstEvolve_append_of_no_evolve l [] h
  simpa using this

/-! Lemmas about `lastEvolveStatus` and `statusAfter`. -/

theorem lastEvolveStatus_cons_of_not_evolve (e : Event) (l : List Event)
    (he : e.isEvolve = false) :
    lastEvolveStatus (e :: l) = lastEvolveStatus l := by
  cases e <;> simp_all [lastEvolveStatus, Event.isEvolve]

theorem lastEvolveStatus_cons_evolve (tgt : Option ℚ) (st : Status)
    (l : List Event) :
    lastEvolveStatus (Event.evolve tgt st :: l) =
      some ((lastEvolveStatus l).getD st) := rfl

theorem lastEvolveStatus_of_no_evolve (l : List Event)
    (h : ∀ e ∈ l, e.isEvolve = false) : lastEvolveStatus l = none := by
  induction l with
  | nil => rfl
  | cons x xs ih =>
    rw [lastEvolveStatus_cons_of_not_evolve x xs (h x (by simp))]
    exact ih fun e he => h e (List.mem_cons_of_mem _ he)

theorem statusAfter_none (l : List Event) :
    statusAfter l none = lastEvolveStatus l := by
  unfold statusAfter
  cases lastEvolveStatus l <;> rfl

theorem statusAfter_of_no_evolve (l : List Event) (s0 : Option Status)
    (h : ∀ e ∈ l, e.isEvolve = false) : statusAfter l s0 = s0 := by
  unfold statusAfter
  rw [lastEvolveStatus_of_no_evolve l h]

theorem statusAfter_cons_evolve (tgt : Option ℚ) (st : Status)
    (l : List Event) (s0 : Option Status) :
    statusAfter (Event.evolve tgt st :: l) s0 = statusAfter l (some st) := by
  unfold statusAfter
  rw [lastEvolveStatus_cons_evolve]
  cases lastEvolveStatus l <;> rfl

theorem statusAfter_cons_of_not_evolve (e : Event) (l : List Event)
    (s0 : Option Status) (he : e.isEvolve = false) :
    statusAfter (e :: l) s0 = statusAfter l s0 := by
  unfold statusAfter
  rw [lastEvolveStatus_cons_of_not_evolve e l he]

theorem lastEvolveStatus_append (a b : List Event) :
    lastEvolveStatus (a ++ b) = statusAfter b (lastEvolveStatus a) := by
  induction a with
  | nil =>
    rw [List.nil_append]
    change lastEvolveStatus b = statusAfter b none
    rw [statusAfter_none]
  | cons x xs ih =>
    by_cases hx : x.isEvolve = true
    · obtain ⟨tgt, st⟩ : ∃ tgt st, x = Event.evolve tgt st := by
        cases x <;> simp_all [Event.isEvolve]
      obtain ⟨st, rfl⟩ := st
      rw [List.cons_append, lastEvolveStatus_cons_evolve,
        lastEvolveStatus_cons_evolve, ih]
      unfold statusAfter
      cases lastEvolveStatus b <;> cases lastEvolveStatus xs <;> rfl
    · simp only [Bool.not_eq_true] at hx
      rw [List.cons_append, lastEvolveStatus_cons_of_not_evolve x _ hx,
        lastEvolveStatus_cons_of_not_evolve x _ hx, ih]

theorem statusAfter_append (a b : List Event) (s0 : Option Status) :
    statusAfter (a ++ b) s0 = statusAfter b (statusAfter a s0) := by
  unfold statusAfter
  rw [lastEvolveStatus_append]
  unfold statusAfter
  cases lastEvolveStatus b <;> cases lastEvolveStatus a <;> rfl

/-! Structural lemmas about the run loop. -/

/-- The `status` local after the style-3 inner loop is the status of its
last evolve event, or the incoming binding when no step was taken. -/
theorem nstepLoop_status (solver : Solver) (n : ℕ) (p : ℚ × Option Status) :
    (nstepLoop solver n p).1.2 = statusAfter (nstepLoop solver n p).2 p.2 := by
  induction n generalizing p with
  | zero => rfl
  | succ n ih =>
    simp only [nstepLoop]
    rw [statusAfter_cons_evolve]
    exact ih _

/-- `takeWhile` keeps a list all of whose elements satisfy the predicate. -/
theorem takeWhile_eq_self_of_all {α : Type} (p : α → Bool) (l : List α)
    (h : ∀ x ∈ l, p x = true) : l.takeWhile p = l := by
  induction l with
  | nil => rfl
  | cons x xs ih =>
    simp only [List.takeWhile_cons, h x (by simp), if_true]
    rw [ih fun e he => h e (List.mem_cons_of_mem _ he)]

/-- `write_F` in append mode extends the log. -/
theorem write_F_mode_a (c : Controller) (t : ℚ) (fl : List (ℚ × List ℚ)) :
    ∃ L, (write_F c t 'a' fl).1 = fl ++ L := by
  unfold write_F
  cases c.computeF with
  | none => exact ⟨[], by simp⟩
  | some f =>
    refine ⟨[(t, f t)], ?_⟩
    show (if ('a' = 'w') then [(t, f t)] else fl ++ [(t, f t)]) = fl ++ [(t, f t)]
    rw [if_neg (by decide)]

/-- Decomposition of a loop iteration: the new loop state and the emitted
events, with the evolution events isolated at the front. -/
theorem loopBody_spec (c : Controller) (solver : Solver) (gf : List ℕ)
    (s : LoopCore) (target : ℚ) :
    ∃ t1 st1 evolves,
      loopBody c solver gf s target =
        (⟨t1, s.frame + 1, (if c.keep_copy then s.frames ++ [t1] else s.frames),
            (write_F c t1 'a' s.flog).1, st1⟩,
          evolves ++ [Event.frameIncrement] ++
            (if c.keep_copy then [Event.appendFrame t1] else []) ++
            loopWrites c (s.frame + 1) ++ (write_F c t1 'a' s.flog).2 ++
            [Event.logInfo (s.frame + 1) t1] ++ gf.map Event.gaugeFlush) ∧
      (∀ e ∈ evolves, ∃ tgt st, e = Event.evolve tgt st) ∧
      st1 = statusAfter evolves s.status ∧
      ((c.output_style < 3 ∨ 1 ≤ c.nstepout) →
        ∃ tgt st rest, evolves = Event.evolve tgt st :: rest) := by
  by_cases h : c.output_style < 3
  · refine ⟨(solver.evolve s.t (some target)).1, some (solver.evolve s.t (some target)).2,
      [Event.evolve (some target) (solver.evolve s.t (some target)).2], ?_, ?_, ?_, ?_⟩
    · simp only [loopBody, h, if_true]
    · simp
    · rw [statusAfter_cons_evolve]
      rfl
    · exact fun _ => ⟨_, _, [], rfl⟩
  · refine ⟨(nstepLoop solver c.nstepout (s.t, s.status)).1.1,
      (nstepLoop solver c.nstepout (s.t, s.status)).1.2,
      (nstepLoop solver c.nstepout (s.t, s.status)).2, ?_, ?_, ?_, ?_⟩
    · simp only [loopBody, h, if_false]
    · intro e he
      obtain ⟨st, rfl⟩ := nstepLoop_mem solver c.nstepout (s.t, s.status) e he
      exact ⟨none, st, rfl⟩
    · exact nstepLoop_status solver c.nstepout (s.t, s.status)
    · intro hsty
      rcases hsty with hsty | hsty
      · exact absurd hsty h
      · obtain ⟨n, hn⟩ : ∃ n, c.nstepout = n + 1 :=
          ⟨c.nstepout - 1, by omega⟩
        rw [hn]
        simp only [nstepLoop]
        exact ⟨none, (solver.evolve s.t none).2, _, rfl⟩

/-- The events after the evolution block of a loop iteration contain no
evolution, no close, and end with the log line followed by the flushes. -/
theorem loopBody_mem (c : Controller) (solver : Solver) (gf : List ℕ)
    (s : LoopCore) (target : ℚ) :
    ∀ e ∈ (loopBody c solver gf s target).2,
      e.isClose = false ∧ e.isWriteF = false ∨ ∃ v t, e = Event.writeF 'a' t v := by
  intro e he
  obtain ⟨t1, st1, evolves, heq, hev, -, -⟩ := loopBody_spec c solver gf s target
  rw [heq] at he
  simp only [List.append_assoc, List.mem_append, List.mem_cons, List.mem_map,
    List.mem_singleton, List.not_mem_nil, or_false] at he
  rcases he with he | rfl | he | he | he | rfl | ⟨g, hg, rfl⟩
  · obtain ⟨tgt, st, rfl⟩ := hev e he
    exact Or.inl (by simp [Event.isClose, Event.isWriteF])
  · exact Or.inl (by simp [Event.isClose, Event.isWriteF])
  · split at he
    · simp only [List.mem_singleton] at he
      subst he
      exact Or.inl (by simp [Event.isClose, Event.isWriteF])
    · simp at he
  · obtain ⟨p, pf, wa, wp, rfl⟩ := loopWrites_mem c (s.frame + 1) e he
    exact Or.inl (by simp [Event.isClose, Event.isWriteF])
  · obtain ⟨v, rfl⟩ := write_F_mem c t1 'a' s.flog e he
    exact Or.inr ⟨v, t1, rfl⟩
  · exact Or.inl (by simp [Event.isClose, Event.isWriteF])
  · exact Or.inl (by simp [Event.isClose, Event.isWriteF])

/-- No event after the evolution block of an iteration is an evolution. -/
theorem loopBody_tail_no_evolve (c : Controller) (f : ℕ) (t1 : ℚ)
    (fl : List (ℚ × List ℚ)) (gf : List ℕ) :
    ∀ e ∈ ([Event.frameIncrement] ++
        (if c.keep_copy then [Event.appendFrame t1] else []) ++
        loopWrites c f ++ (write_F c t1 'a' fl).2 ++
        [Event.logInfo f t1] ++ gf.map Event.gaugeFlush),
      e.isEvolve = false := by
  intro e he
  simp only [List.append_assoc, List.mem_append, List.mem_cons, List.mem_map,
    List.mem_singleton, List.not_mem_nil, or_false] at he
  rcases he with rfl | he | he | he | rfl | ⟨g, hg, rfl⟩
  · simp [Event.isEvolve]
  · split at he
    · simp only [List.mem_singleton] at he
      subst he
      simp [Event.isEvolve]
    · simp at he
  · obtain ⟨p, pf, wa, wp, rfl⟩ := loopWrites_mem c f e he
    simp [Event.isEvolve]
  · obtain ⟨v, rfl⟩ := write_F_mem c t1 'a' fl e he
    simp [Event.isEvolve]
  · simp [Event.isEvolve]
  · simp [Event.isEvolve]

/-- The `status` binding after one iteration is determined by the
iteration's evolve events. -/
theorem loopBody_status (c : Controller) (solver : Solver) (gf : List ℕ)
    (s : LoopCore) (target : ℚ) :
    (loopBody c solver gf s target).1.status =
      statusAfter (loopBody c solver gf s target).2 s.status := by
  obtain ⟨t1, st1, evolves, heq, hev, hst, -⟩ := loopBody_spec c solver gf s target
  rw [heq]
  show st1 = statusAfter _ s.status
  simp only [List.append_assoc]
  rw [statusAfter_append, statusAfter_of_no_evolve _ _ (fun e he =>
    loopBody_tail_no_evolve c (s.frame + 1) t1 s.flog gf e
      (by simpa only [List.append_assoc] using he)), hst]

/-- The `status` binding after the whole loop is determined by the
loop's evolve events. -/
theorem runLoop_status (c : Controller) (solver : Solver) (gf : List ℕ)
    (s : LoopCore) (ts : List ℚ) :
    (runLoop c solver gf s ts).1.status =
      statusAfter (runLoop c solver gf s ts).2 s.status := by
  induction ts generalizing s with
  | nil => rfl
  | cons t ts ih =>
    simp only [runLoop]
    rw [ih, statusAfter_append, ← loopBody_status]

/-- The loop never closes a gauge stream. -/
theorem runLoop_no_close (c : Controller) (solver : Solver) (gf : List ℕ)
    (s : LoopCore) (ts : List ℚ) :
    ∀ e ∈ (runLoop c solver gf s ts).2, e.isClose = false := by
  induction ts generalizing s with
  | nil => simp [runLoop]
  | cons t ts ih =>
    intro e he
    simp only [runLoop, List.mem_append] at he
    rcases he with he | he
    · rcases loopBody_mem c solver gf s t e he with ⟨h, -⟩ | ⟨v, tt, rfl⟩
      · exact h
      · simp [Event.isClose]
    · exact ih _ e he

/-- With at least one open gauge stream, each loop iteration's output
point is followed by gauge flushes before any further evolution. -/
theorem loopBody_flush (c : Controller) (solver : Solver) (gf : List ℕ)
    (s : LoopCore) (target : ℚ) (hgf : gf ≠ []) :
    flushAfterEachOutput (loopBody c solver gf s target).2 = true := by
  obtain ⟨t1, st1, evolves, heq, hev, -, -⟩ := loopBody_spec c solver gf s target
  rw [heq]
  simp only [List.append_assoc]
  rw [flushAfterEachOutput_append_of_no_logInfo _ _ (fun e he => by
      obtain ⟨tgt, st, rfl⟩ := hev e he
      simp [Event.isLogInfo]),
    flushAfterEachOutput_append_of_no_logInfo _ _ (fun e he => by
      simp only [List.mem_singleton] at he
      subst he
      simp [Event.isLogInfo]),
    flushAfterEachOutput_append_of_no_logInfo _ _ (fun e he => by
      split at he
      · simp only [List.mem_singleton] at he
        subst he
        simp [Event.isLogInfo]
      · simp at he),
    flushAfterEachOutput_append_of_no_logInfo _ _ (fun e he => by
      obtain ⟨p, pf, wa, wp, rfl⟩ := loopWrites_mem c (s.frame + 1) e he
      simp [Event.isLogInfo]),
    flushAfterEachOutput_append_of_no_logInfo _ _ (fun e he => by
      obtain ⟨v, rfl⟩ := write_F_mem c t1 'a' s.flog e he
      simp [Event.isLogInfo]),
    List.singleton_append, flushAfterEachOutput_cons]
  have htw : (gf.map Event.gaugeFlush).takeWhile (fun x => !x.isEvolve) =
      gf.map Event.gaugeFlush :=
    takeWhile_eq_self_of_all _ _ (fun x hx => by
      obtain ⟨g, hg, rfl⟩ := List.mem_map.1 hx
      simp [Event.isEvolve])
  obtain ⟨g0, hg0⟩ := List.exists_mem_of_ne_nil gf hgf
  rw [htw]
  simp only [Event.isLogInfo, Bool.not_true, Bool.false_or, Bool.and_eq_true]
  constructor
  · exact List.any_eq_true.2 ⟨Event.gaugeFlush g0, List.mem_map_of_mem _ hg0,
      by simp [Event.isFlush]⟩
  · exact flushAfterEachOutput_of_no_logInfo _ (fun e he => by
      obtain ⟨g, hg, rfl⟩ := List.mem_map.1 he
      simp [Event.isLogInfo])

/-- With at least one open gauge stream, the flush discipline holds over
the whole loop trace. -/
theorem runLoop_flush (c : Controller) (solver : Solver) (gf : List ℕ)
    (hgf : gf ≠ []) (s : LoopCore) (ts : List ℚ) :
    flushAfterEachOutput (runLoop c solver gf s ts).2 = true := by
  induction ts generalizing s with
  | nil => rfl
  | cons t ts ih =>
    simp only [runLoop]
    exact flushAfterEachOutput_append _ _ (loopBody_flush c solver gf s t hgf) (ih _)

/-- The loop only ever appends to the functional log. -/
theorem runLoop_flog (c : Controller) (solver : Solver) (gf : List ℕ)
    (s : LoopCore) (ts : List ℚ) :
    ∃ L, (runLoop c solver gf s ts).1.flog = s.flog ++ L := by
  induction ts generalizing s with
  | nil => exact ⟨[], by simp [runLoop]⟩
  | cons t ts ih =>
    simp only [runLoop]
    obtain ⟨t1, st1, evolves, heq, -, -, -⟩ := loopBody_spec c solver gf s t
    obtain ⟨L1, hL1⟩ := write_F_mode_a c t1 s.flog
    obtain ⟨L2, hL2⟩ := ih ((loopBody c solver gf s t).1)
    refine ⟨L1 ++ L2, ?_⟩
    rw [hL2, heq]
    show (write_F c t1 'a' s.flog).1 ++ L2 = s.flog ++ (L1 ++ L2)
    rw [hL1, List.append_assoc]

/-- A nonempty loop trace begins with an evolution event (styles 1-2
always; style 3 whenever `nstepout ≥ 1`). -/
theorem runLoop_head_evolve (c : Controller) (solver : Solver) (gf : List ℕ)
    (s : LoopCore) (t : ℚ) (ts : List ℚ)
    (hsty : c.output_style < 3 ∨ 1 ≤ c.nstepout) :
    ∃ tgt st rest,
      (runLoop c solver gf s (t :: ts)).2 = Event.evolve tgt st :: rest := by
  simp only [runLoop]
  obtain ⟨t1, st1, evolves, heq, -, -, hhead⟩ := loopBody_spec c solver gf s t
  obtain ⟨tgt, st, erest, hrest⟩ := hhead hsty
  rw [heq, hrest]
  simp only [List.append_assoc, List.cons_append]
  exact ⟨tgt, st, _, rfl⟩

/-! The claims. -/

/-- C1: for output Style A (`output_style = 1`), the scheduler produces a
linear sequence of exactly `N+1` evenly spaced times from the current
solution time `t0` to the final time `tf` inclusive (`N ≥ 1` so that the
sequence has a distinct endpoint); in particular with `t0 = 0`, `tf = 1`,
`N = 10` it produces exactly the 11 times `0.0, 0.1, ..., 1.0` in
increasing order. -/
theorem C1_styleA_linear_schedule :
    (∀ (c : Controller) (sol : Solution) (N : ℤ),
      c.output_style = 1 → c.num_output_times = N → 1 ≤ N →
      ∃ l, outputTimes c sol = .ok l ∧
        l.length = N.toNat + 1 ∧
        l[0]? = some sol.t ∧
        l.getLast? = some c.tfinal ∧
        ∀ i : ℕ, i ≤ N.toNat →
          l[i]? = some (sol.t + (i : ℚ) * (c.tfinal - sol.t) / (N : ℚ))) ∧
    outputTimes ctrlC1 solEx =
      .ok [0, 1/10, 1/5, 3/10, 2/5, 1/2, 3/5, 7/10, 4/5, 9/10, 1] ∧
    List.Chain' (fun a b : ℚ => a < b)
      [0, 1/10, 1/5, 3/10, 2/5, 1/2, 3/5, 7/10, 4/5, 9/10, 1] := by
  refine ⟨?_, ?_, ?_⟩
  · intro c sol N hst hn hN
    obtain ⟨n, rfl⟩ : ∃ n : ℕ, N = (n : ℤ) :=
      ⟨N.toNat, (Int.toNat_of_nonneg (by omega)).symm⟩
    have hn1 : 1 ≤ n := by exact_mod_cast hN
    have hlin : outputTimes c sol = .ok ((List.range (((n : ℤ) + 1).toNat)).map
        fun i : ℕ => sol.t + (i : ℚ) * (c.tfinal - sol.t) /
          (((((n : ℤ) + 1).toNat) : ℚ) - 1)) := by
      unfold outputTimes
      rw [if_pos hst, hn]
      unfold linspace
      rw [if_neg (by omega), if_neg (by omega)]
    have hnn : ((n : ℤ) + 1).toNat = n + 1 := by omega
    rw [hnn] at hlin
    have hden : (((n + 1 : ℕ)) : ℚ) - 1 = (n : ℚ) := by push_cast; ring
    rw [hden] at hlin
    have hNt : ((n : ℤ)).toNat = n := by omega
    have hentry : ∀ i : ℕ, i < n + 1 →
        ((List.range (n + 1)).map fun i : ℕ =>
          sol.t + (i : ℚ) * (c.tfinal - sol.t) / (n : ℚ))[i]? =
        some (sol.t + (i : ℚ) * (c.tfinal - sol.t) / (n : ℚ)) := by
      intro i hi
      rw [List.getElem?_map, List.getElem?_range hi]
      rfl
    refine ⟨_, hlin, ?_, ?_, ?_, ?_⟩
    · simp [hNt]
    · rw [hentry 0 (by omega)]
      norm_num
    · rw [List.getLast?_eq_getElem?]
      simp only [List.length_map, List.length_range, Nat.add_sub_cancel]
      rw [hentry n (by omega)]
      have hne : (n : ℚ) ≠ 0 := Nat.cast_ne_zero.2 (by omega)
      congr 1
      field_simp
    · intro i hi
      rw [hNt] at hi
      rw [hentry i (by omega)]
      norm_num
  · have ht : Int.toNat 11 = (11 : ℕ) := rfl
    have hr : List.range (11 : ℕ) = [0, 1, 2, 3, 4, 5, 6, 7, 8, 9, 10] := by rfl
    norm_num [outputTimes, ctrlC1, ctrlBase, solEx, linspace, ht, hr]
  · norm_num [List.chain'_cons, List.chain'_singleton]

/-- Witness for C1: the general part instantiated at the concrete
style-1 configuration with `N = 10`. -/
theorem C1_witness :
    ∃ l, outputTimes ctrlC1 solEx = .ok l ∧ l.length = (10 : ℤ).toNat + 1 ∧
      l[0]? = some solEx.t ∧ l.getLast? = some ctrlC1.tfinal := by
  obtain ⟨l, h1, h2, h3, h4, -⟩ :=
    C1_styleA_linear_schedule.1 ctrlC1 solEx 10 rfl rfl (by norm_num)
  exact ⟨l, h1, h2, h3, h4⟩

/-- C2: whenever the computed output-time sequence is empty, `run` halts
non-fatally (returns `None`), prints the halting report, prints the
reached-final-time report exactly when `t = tfinal`, and performs no
output write, no functional write, no snapshot append, no frame-counter
increment and no evolution. -/
theorem C2_empty_schedule_halt (c : Controller) (solver : Solver)
    (sol : Solution) (flog0 : List (ℚ × List ℚ))
    (hs : c.solver = some solver) (hl : c.solution = some sol)
    (hv : check_validity c sol = .ok ())
    (hot : outputTimes c sol = .ok []) :
    (run c flog0).outcome = .ok none ∧
    (run c flog0).frames = c.frames ∧
    (run c flog0).flog = flog0 ∧
    Event.printMsg "No valid output times; halting." ∈ (run c flog0).trace ∧
    (sol.t = c.tfinal →
      Event.printMsg "Simulation has already reached tfinal." ∈
        (run c flog0).trace) ∧
    (sol.t ≠ c.tfinal →
      Event.printMsg "Simulation has already reached tfinal." ∉
        (run c flog0).trace) ∧
    (∀ e ∈ (run c flog0).trace,
      e.isWriteSolution = false ∧ e.isWriteF = false ∧
      e.isAppendFrame = false ∧ e.isFrameIncrement = false ∧
      e.isEvolve = false) := by
  rw [run_empty_eq c solver sol flog0 hs hl hv hot]
  refine ⟨rfl, rfl, rfl, by simp, fun h => by simp [h], fun h => ?_, fun e he => ?_⟩
  · rw [if_neg h]
    intro hmem
    simp only [List.append_nil, List.mem_append, List.mem_singleton] at hmem
    rcases hmem with (hm | hm) | hm
    · rcases preEvents_mem c solver sol _ hm with h' | h' <;> simp at h'
    · simp at hm
    · simp at hm
  · simp only [List.mem_append, List.mem_singleton] at he
    rcases he with ((he | rfl) | rfl) | he
    · rcases preEvents_mem c solver sol _ he with rfl | rfl <;>
        simp [Event.isWriteSolution, Event.isWriteF, Event.isAppendFrame,
          Event.isFrameIncrement, Event.isEvolve]
    · simp [Event.isWriteSolution, Event.isWriteF, Event.isAppendFrame,
        Event.isFrameIncrement, Event.isEvolve]
    · simp [Event.isWriteSolution, Event.isWriteF, Event.isAppendFrame,
        Event.isFrameIncrement, Event.isEvolve]
    · split at he
      · simp only [List.mem_singleton] at he
        subst he
        simp [Event.isWriteSolution, Event.isWriteF, Event.isAppendFrame,
          Event.isFrameIncrement, Event.isEvolve]
      · simp at he

/-- Witness for C2: the empty style-2 schedule halts with `None` and an
unchanged functional log. -/
theorem C2_witness :
    (run ctrlC2 [(0, [3])]).outcome = .ok none ∧
    (run ctrlC2 [(0, [3])]).flog = [(0, [3])] := by
  obtain ⟨h1, -, h3, -⟩ :=
    C2_empty_schedule_halt ctrlC2 solverEx solEx [(0, [3])] rfl rfl
      (by decide) (by decide)
  exact ⟨h1, h3⟩

/-- The value of `return status` is a solver status or a `NameError`,
never the output-conflict exception. -/
theorem statusOutcome_ne_refusing (x : Option Status) :
    statusOutcome x ≠ .error .refusingOverwrite := by
  cases x <;> simp [statusOutcome]

/-- C3 (amended): with output enabled (handler and format both set), an
existing output directory and clobber disabled, `run` raises the
output-conflict exception before any main-snapshot, derived-snapshot or
functional-log write (the functional log is untouched) — but for gauged
runs the gauge files have already been created in the output directory
and the initial gauge values written before the check; with output
disabled the check is bypassed entirely and the output-conflict exception
can never be raised. -/
theorem C3_output_conflict (c : Controller) (solver : Solver) (sol : Solution)
    (flog0 : List (ℚ × List ℚ)) (t0 : ℚ) (ts : List ℚ)
    (hs : c.solver = some solver) (hl : c.solution = some sol)
    (hv : check_validity c sol = .ok ())
    (hot : outputTimes c sol = .ok (t0 :: ts)) :
    ((¬(c.output_handler = none ∨ c.output_format = none)) →
      c.outdirExists = true → c.output_clobber = false →
      (run c flog0).outcome = .error .refusingOverwrite ∧
      (run c flog0).flog = flog0 ∧
      (∀ e ∈ (run c flog0).trace,
        e.isWriteSolution = false ∧ e.isWriteF = false) ∧
      Event.writeGaugeValues ∈ (run c flog0).trace ∧
      (sol.gauges ≠ [] →
        Event.setupGaugeFiles c.outdir ∈ (run c flog0).trace)) ∧
    ((c.output_handler = none ∨ c.output_format = none) →
      (run c flog0).outcome ≠ .error .refusingOverwrite) := by
  constructor
  · intro hen hex hcl
    have hiw : initialWrites c sol.start_frame = .error .refusingOverwrite := by
      unfold initialWrites
      rw [if_neg hen, if_pos ⟨hex, hcl⟩]
    rw [run_clobber_eq c solver sol flog0 t0 ts _ hs hl hv hot hiw]
    refine ⟨rfl, rfl, fun e he => ?_, by simp, fun hg => ?_⟩
    · simp only [List.mem_append, List.mem_singleton] at he
      rcases he with (he | rfl) | he
      · rcases preEvents_mem c solver sol _ he with rfl | rfl <;>
          simp [Event.isWriteSolution, Event.isWriteF]
      · simp [Event.isWriteSolution, Event.isWriteF]
      · split at he
        · simp only [List.mem_singleton] at he
          subst he
          simp [Event.isWriteSolution, Event.isWriteF]
        · simp at he
    · have hlen : sol.gauges.length > 0 := List.length_pos.2 hg
      unfold preEvents
      simp [hlen]
  · intro hdis
    have hiw : initialWrites c sol.start_frame = .ok [] := by
      unfold initialWrites
      rw [if_pos hdis]
    rw [run_success_outcome c solver sol flog0 t0 ts [] hs hl hv hot hiw]
    exact statusOutcome_ne_refusing _

/-- Witness for C3: the conflict configuration raises the overwrite
exception; the same conflict with output disabled does not. -/
theorem C3_witness :
    (run ctrlC3g []).outcome = .error .refusingOverwrite ∧
    Event.setupGaugeFiles ctrlC3g.outdir ∈ (run ctrlC3g []).trace ∧
    (run ctrlC3dis []).outcome ≠ .error .refusingOverwrite := by
  refine ⟨?_, ?_, ?_⟩
  · exact ((C3_output_conflict ctrlC3g solverEx solExG [] 0 [1] rfl rfl
      (by decide) (by decide)).1 (by decide) rfl rfl).1
  · exact ((C3_output_conflict ctrlC3g solverEx solExG [] 0 [1] rfl rfl
      (by decide) (by decide)).1 (by decide) rfl rfl).2.2.2.2 (by decide)
  · exact (C3_output_conflict ctrlC3dis solverEx solEx [] 0 [1] rfl rfl
      (by decide) (by decide)).2 (Or.inl rfl)

/-- Counterexample for C3 as stated: on a gauged run the output-conflict
error is raised only after the gauge files have been created in the
output directory (controller.py lines 302-303) and the initial gauge
values written (line 315), so the error does not precede every file
write and the output directory's contents are no longer unchanged. -/
theorem C3_counterexample :
    (run ctrlC3g []).outcome = .error .refusingOverwrite ∧
    Event.setupGaugeFiles "_output" ∈ (run ctrlC3g []).trace ∧
    Event.writeGaugeValues ∈ (run ctrlC3g []).trace := by decide

/-- C4 (amended): during a run with open gauge streams and a per-target
evolution step (styles 1-2, or style 3 with `nstepout ≥ 1`), every
produced output point except the initial one is followed by a flush of
every open gauge stream before any further evolution; the initial output
point is not: whenever any further target time exists, the
flush-after-every-output discipline fails on the full trace, and it holds
exactly from the first evolution call onwards. -/
theorem C4_flush_after_noninitial_outputs (c : Controller) (solver : Solver)
    (sol : Solution) (flog0 : List (ℚ × List ℚ)) (t0 : ℚ) (ts : List ℚ)
    (outEvs : List Event)
    (hs : c.solver = some solver) (hl : c.solution = some sol)
    (hv : check_validity c sol = .ok ())
    (hot : outputTimes c sol = .ok (t0 :: ts))
    (hiw : initialWrites c sol.start_frame = .ok outEvs)
    (hg : sol.gauges ≠ [])
    (hsty : c.output_style < 3 ∨ 1 ≤ c.nstepout) :
    flushAfterEachOutput (dropToFirstEvolve (run c flog0).trace) = true ∧
    (ts ≠ [] → flushAfterEachOutput (run c flog0).trace = false) := by
  have hgne : gaugeFilesOf sol ≠ [] := by
    unfold gaugeFilesOf
    rw [if_pos (List.length_pos.2 hg)]
    exact hg
  rw [run_success_trace c solver sol flog0 t0 ts outEvs hs hl hv hot hiw]
  constructor
  · rw [List.append_assoc]
    rw [dropToFirstEvolve_append_of_no_evolve _ _
      (fun e he => (initSegment_mem c solver sol outEvs hiw flog0 e he).1)]
    cases ts with
    | nil =>
      rw [show (loopResult c solver sol flog0 []).2 = [] from rfl,
        List.nil_append,
        dropToFirstEvolve_of_no_evolve _ (fun e he => by
          obtain ⟨g, hg', rfl⟩ := List.mem_map.1 he
          simp [Event.isEvolve])]
      rfl
    | cons t1 ts' =>
      obtain ⟨tgt, st, rest, hle⟩ := runLoop_head_evolve c solver
        (gaugeFilesOf sol) (initialLoopState c sol flog0) t1 ts' hsty
      rw [show (loopResult c solver sol flog0 (t1 :: ts')).2 =
          Event.evolve tgt st :: rest from hle, List.cons_append,
        dropToFirstEvolve_cons_evolve, ← List.cons_append, ← hle]
      exact flushAfterEachOutput_append _ _
        (runLoop_flush c solver (gaugeFilesOf sol) hgne
          (initialLoopState c sol flog0) (t1 :: ts'))
        (flushAfterEachOutput_of_no_logInfo _ (fun e he => by
          obtain ⟨g, hg', rfl⟩ := List.mem_map.1 he
          simp [Event.isLogInfo]))
  · intro hts
    cases ts with
    | nil => exact absurd rfl hts
    | cons t1 ts' =>
      obtain ⟨tgt, st, rest, hle⟩ := runLoop_head_evolve c solver
        (gaugeFilesOf sol) (initialLoopState c sol flog0) t1 ts' hsty
      unfold initSegment
      rw [show (loopResult c solver sol flog0 (t1 :: ts')).2 =
          Event.evolve tgt st :: rest from hle]
      simp only [List.append_assoc, List.singleton_append, List.cons_append,
        List.nil_append]
      apply flushAfterEachOutput_append_false
      rw [flushAfterEachOutput_cons_of_not_logInfo _ _
        (by simp [Event.isLogInfo])]
      apply flushAfterEachOutput_append_false
      apply flushAfterEachOutput_append_false
      apply flushAfterEachOutput_append_false
      exact flushAfterEachOutput_logInfo_evolve _ _ _ _ _

/-- Witness for C4 (amended): the concrete gauged two-point run satisfies
the discipline from the first evolution onwards and violates it on the
full trace. -/
theorem C4_witness :
    flushAfterEachOutput (dropToFirstEvolve (run ctrlC4 []).trace) = true ∧
    (([(1 : ℚ)] : List ℚ) ≠ [] →
      flushAfterEachOutput (run ctrlC4 []).trace = false) :=
  C4_flush_after_noninitial_outputs ctrlC4 solverEx solExG [] 0 [1] [] rfl rfl
    (by decide) (by decide) (by decide) (by decide) (Or.inl (by decide))

/-- Counterexample for C4 as stated: a successful two-point run with an
open gauge stream whose trace violates the flush-after-every-output
discipline, because no flush separates the initial output point from the
first evolution call. -/
theorem C4_counterexample :
    solExG.gauges ≠ [] ∧
    (run ctrlC4 []).outcome = .ok (some 7) ∧
    flushAfterEachOutput (run ctrlC4 []).trace = false := by decide

/-- C5 (amended): every open gauge stream is closed exactly once when the
run loop ends by successful exhaustion of the schedule; on the non-fatal
empty-schedule halt and on the output-conflict failure the streams are
not closed at all. -/
theorem C5_gauge_close_on_success_only :
    (∀ (c : Controller) (solver : Solver) (sol : Solution)
        (flog0 : List (ℚ × List ℚ)) (t0 : ℚ) (ts : List ℚ)
        (outEvs : List Event) (g : ℕ),
      c.solver = some solver → c.solution = some sol →
      check_validity c sol = .ok () →
      outputTimes c sol = .ok (t0 :: ts) →
      initialWrites c sol.start_frame = .ok outEvs →
      sol.gauges.Nodup → g ∈ sol.gauges →
      (run c flog0).trace.count (Event.gaugeClose g) = 1) ∧
    (∀ (c : Controller) (solver : Solver) (sol : Solution)
        (flog0 : List (ℚ × List ℚ)) (g : ℕ),
      c.solver = some solver → c.solution = some sol →
      check_validity c sol = .ok () →
      outputTimes c sol = .ok [] →
      (run c flog0).trace.count (Event.gaugeClose g) = 0) ∧
    (∀ (c : Controller) (solver : Solver) (sol : Solution)
        (flog0 : List (ℚ × List ℚ)) (t0 : ℚ) (ts : List ℚ) (g : ℕ),
      c.solver = some solver → c.solution = some sol →
      check_validity c sol = .ok () →
      outputTimes c sol = .ok (t0 :: ts) →
      initialWrites c sol.start_frame = .error .refusingOverwrite →
      (run c flog0).trace.count (Event.gaugeClose g) = 0) := by
  refine ⟨?_, ?_, ?_⟩
  · intro c solver sol flog0 t0 ts outEvs g hs hl hv hot hiw hnd hg
    have hgne : sol.gauges ≠ [] := List.ne_nil_of_mem hg
    have hgf : gaugeFilesOf sol = sol.gauges := by
      unfold gaugeFilesOf
      rw [if_pos (List.length_pos.2 hgne)]
    rw [run_success_trace c solver sol flog0 t0 ts outEvs hs hl hv hot hiw,
      List.count_append, List.count_append]
    have h1 : (initSegment c solver sol outEvs flog0).count
        (Event.gaugeClose g) = 0 := by
      rw [List.count_eq_zero]
      intro hmem
      have := (initSegment_mem c solver sol outEvs hiw flog0 _ hmem).2.1
      simp [Event.isClose] at this
    have h2 : (loopResult c solver sol flog0 ts).2.count
        (Event.gaugeClose g) = 0 := by
      rw [List.count_eq_zero]
      intro hmem
      have := runLoop_no_close c solver (gaugeFilesOf sol)
        (initialLoopState c sol flog0) ts _ hmem
      simp [Event.isClose] at this
    have h3 : ((gaugeFilesOf sol).map Event.gaugeClose).count
        (Event.gaugeClose g) = 1 := by
      rw [hgf, List.count_map_of_injective sol.gauges Event.gaugeClose
        (fun a b h => Event.gaugeClose.inj h) g,
        List.count_eq_one_of_mem hnd hg]
    rw [h1, h2, h3]
  · intro c solver sol flog0 g hs hl hv hot
    rw [run_empty_eq c solver sol flog0 hs hl hv hot, List.count_eq_zero]
    intro hmem
    simp only [List.mem_append, List.mem_singleton] at hmem
    rcases hmem with ((hm | hm) | hm) | hm
    · rcases preEvents_mem c solver sol _ hm with h | h <;> simp at h
    · simp at hm
    · simp at hm
    · split at hm <;> simp at hm
  · intro c solver sol flog0 t0 ts g hs hl hv hot hiw
    rw [run_clobber_eq c solver sol flog0 t0 ts _ hs hl hv hot hiw,
      List.count_eq_zero]
    intro hmem
    simp only [List.mem_append, List.mem_singleton] at hmem
    rcases hmem with (hm | hm) | hm
    · rcases preEvents_mem c solver sol _ hm with h | h <;> simp at h
    · simp at hm
    · split at hm <;> simp at hm

/-- Witness for C5 (amended): the gauged two-point run closes its stream
exactly once; the empty-schedule and output-conflict variants never close
it. -/
theorem C5_witness :
    (run ctrlC5 []).trace.count (Event.gaugeClose 0) = 1 ∧
    (run ctrlC5e []).trace.count (Event.gaugeClose 0) = 0 ∧
    (run ctrlC5c []).trace.count (Event.gaugeClose 0) = 0 :=
  ⟨C5_gauge_close_on_success_only.1 ctrlC5 solverEx solExG [] 0 [1]
      [Event.writeSolution 0 "_output" none false false] 0 rfl rfl
      (by decide) (by decide) (by decide) (by decide) (by decide),
    C5_gauge_close_on_success_only.2.1 ctrlC5e solverEx solExG [] 0 rfl rfl
      (by decide) (by decide),
    C5_gauge_close_on_success_only.2.2 ctrlC5c solverEx solExG [] 0 [1] 0
      rfl rfl (by decide) (by decide) (by decide)⟩

/-- Counterexample for C5 as stated: on the non-fatal empty-schedule halt
the open gauge stream is left open (no close event at all). -/
theorem C5_counterexample :
    solExG.gauges = [0] ∧
    (run ctrlC5e []).outcome = .ok none ∧
    (run ctrlC5e []).trace.count (Event.gaugeClose 0) = 0 := by decide

/-- C6: evaluation of the code at the failing input.  With `compute_p`
configured and output enabled over the schedule `[0, 1]`, the initial
derived-quantity snapshot goes under `<outdir>/_p` as documented, but the
frame-1 derived-quantity snapshot is written under `<outdir>` itself
(controller.py line 390 passes `path = self.outdir` inside the loop) and
never under `<outdir>/_p`. -/
theorem C6_derived_path_bug :
    Event.writeSolution 0 ctrlC6.outdir_p (some "claw_p") false true ∈
      (run ctrlC6 []).trace ∧
    Event.writeSolution 1 ctrlC6.outdir (some "claw_p") false true ∈
      (run ctrlC6 []).trace ∧
    Event.writeSolution 1 ctrlC6.outdir_p (some "claw_p") false true ∉
      (run ctrlC6 []).trace ∧
    ctrlC6.outdir_p ≠ ctrlC6.outdir := by decide

/-- C7 (amended): a resumed `run` re-truncates the functional log at its
initial output point (`write_F` is invoked with mode 'w' regardless of
the start frame), so the final log contents are independent of any
pre-existing lines, which are lost rather than preserved; the log then
holds the initial point's line first and subsequent points append. -/
theorem C7_resume_truncates_functional_log (c : Controller) (solver : Solver)
    (sol : Solution) (f : ℚ → List ℚ) (t0 : ℚ) (ts : List ℚ)
    (outEvs : List Event)
    (hs : c.solver = some solver) (hl : c.solution = some sol)
    (hv : check_validity c sol = .ok ())
    (hot : outputTimes c sol = .ok (t0 :: ts))
    (hiw : initialWrites c sol.start_frame = .ok outEvs)
    (hF : c.computeF = some f) :
    (∀ flog0 flog0', (run c flog0).flog = (run c flog0').flog) ∧
    (∀ flog0, (run c flog0).flog.head? = some (sol.t, f sol.t)) ∧
    (∀ flog0, Event.writeF 'w' sol.t (f sol.t) ∈ (run c flog0).trace) := by
  have hw : ∀ flog0 : List (ℚ × List ℚ),
      write_F c sol.t 'w' flog0 =
        ([(sol.t, f sol.t)], [Event.writeF 'w' sol.t (f sol.t)]) := by
    intro flog0
    unfold write_F
    rw [hF]
    simp
  refine ⟨?_, ?_, ?_⟩
  · intro g g'
    rw [run_success_flog c solver sol g t0 ts outEvs hs hl hv hot hiw,
      run_success_flog c solver sol g' t0 ts outEvs hs hl hv hot hiw]
    unfold loopResult initialLoopState
    rw [hw g, hw g']
  · intro g
    rw [run_success_flog c solver sol g t0 ts outEvs hs hl hv hot hiw]
    obtain ⟨L, hL⟩ := runLoop_flog c solver (gaugeFilesOf sol)
      (initialLoopState c sol g) ts
    unfold loopResult
    rw [hL]
    show ((write_F c sol.t 'w' g).1 ++ L).head? = some (sol.t, f sol.t)
    rw [hw g]
    rfl
  · intro g
    rw [run_success_trace c solver sol g t0 ts outEvs hs hl hv hot hiw]
    unfold initSegment
    rw [show (write_F c sol.t 'w' g).2 = [Event.writeF 'w' sol.t (f sol.t)]
      from by rw [hw g]]
    simp

/-- Witness for C7 (amended): the resumed concrete run yields the same
log whatever was on disk, and its first line is the initial point's. -/
theorem C7_witness :
    (run ctrlC7 []).flog = (run ctrlC7 [(0, [42])]).flog ∧
    (run ctrlC7 []).flog.head? = some (5, [5]) := by
  obtain ⟨h1, h2, -⟩ := C7_resume_truncates_functional_log ctrlC7 solverEx
    solExR (fun t => [t]) 5 [6]
    [Event.writeSolution 1 "_output" none false false]
    rfl rfl (by decide) (by decide) (by decide) rfl
  exact ⟨h1 [] [(0, [42])], h2 []⟩

/-- Counterexample for C7 as stated: resuming at start frame 1 with a
pre-existing line 0 in the functional log, `run` truncates the log, so
line 0 is lost rather than preserved. -/
theorem C7_counterexample :
    solExR.start_frame = 1 ∧
    (run ctrlC7 [(0, [42])]).flog = [(5, [5]), (6, [6])] ∧
    (0, [42]) ∉ (run ctrlC7 [(0, [42])]).flog := by decide

/-- C8 (amended): the missing-solver/solution null check fails with no
side effects at all (empty trace, frames and functional log untouched);
a `check_validity` failure is raised before gauge values are written and
before any output, functional write or evolution, but only after
gauge-file setup and solver setup may already have occurred — every event
it leaves behind is one of those two setup events. -/
theorem C8_entry_failures :
    (∀ (c : Controller) (flog0 : List (ℚ × List ℚ)),
      c.solver = none ∨ c.solution = none →
      run c flog0 = ⟨.error .noSolverOrSolution, [], c.frames, flog0, none⟩) ∧
    (∀ (c : Controller) (solver : Solver) (sol : Solution)
        (flog0 : List (ℚ × List ℚ)) (err : RunError),
      c.solver = some solver → c.solution = some sol →
      check_validity c sol = .error err →
      (run c flog0).outcome = .error err ∧
      (run c flog0).frames = c.frames ∧
      (run c flog0).flog = flog0 ∧
      ∀ e ∈ (run c flog0).trace,
        e = Event.setupGaugeFiles c.outdir ∨ e = Event.solverSetup) := by
  constructor
  · exact run_none_eq
  · intro c solver sol flog0 err hs hl hv
    rw [run_invalid_eq c solver sol flog0 err hs hl hv]
    exact ⟨rfl, rfl, rfl, preEvents_mem c solver sol⟩

/-- Witness for C8 (amended): instantiated at a solver-less configuration
and at the wrong-type solver configuration. -/
theorem C8_witness :
    run { ctrlBase with solver := none } [] =
      ⟨.error .noSolverOrSolution, [], [], [], none⟩ ∧
    (run ctrlC8 []).outcome = .error .solverWrongType ∧
    (run ctrlC8 []).flog = [] := by
  refine ⟨?_, ?_, ?_⟩
  · exact C8_entry_failures.1 { ctrlBase with solver := none } [] (Or.inl rfl)
  · exact (C8_entry_failures.2 ctrlC8 solverBad solExG [] .solverWrongType
      rfl rfl (by decide)).1
  · exact (C8_entry_failures.2 ctrlC8 solverBad solExG [] .solverWrongType
      rfl rfl (by decide)).2.2.1

/-- Counterexample for C8 as stated: an invalid (wrong-type) solver over
a gauged solution fails validation only after gauge-file setup and solver
setup have already happened, so the failure is not free of side
effects. -/
theorem C8_counterexample :
    (run ctrlC8 []).outcome = .error .solverWrongType ∧
    Event.setupGaugeFiles "_output" ∈ (run ctrlC8 []).trace ∧
    Event.solverSetup ∈ (run ctrlC8 []).trace := by decide

/-- C9: on successful exhaustion of a schedule with at least one further
target time (and a per-target evolution step: styles 1-2, or style 3 with
`nstepout ≥ 1`), `run` returns exactly the status reported by the
solver's last evolution call — the status of the last evolve event of the
trace. -/
theorem C9_returns_last_evolve_status (c : Controller) (solver : Solver)
    (sol : Solution) (flog0 : List (ℚ × List ℚ)) (t0 t1 : ℚ) (ts : List ℚ)
    (outEvs : List Event)
    (hs : c.solver = some solver) (hl : c.solution = some sol)
    (hv : check_validity c sol = .ok ())
    (hot : outputTimes c sol = .ok (t0 :: t1 :: ts))
    (hiw : initialWrites c sol.start_frame = .ok outEvs)
    (hsty : c.output_style < 3 ∨ 1 ≤ c.nstepout) :
    ∃ st, lastEvolveStatus (run c flog0).trace = some st ∧
      (run c flog0).outcome = .ok (some st) := by
  have htr := run_success_trace c solver sol flog0 t0 (t1 :: ts) outEvs
    hs hl hv hot hiw
  have hoc := run_success_outcome c solver sol flog0 t0 (t1 :: ts) outEvs
    hs hl hv hot hiw
  have hseg : lastEvolveStatus (run c flog0).trace =
      lastEvolveStatus (loopResult c solver sol flog0 (t1 :: ts)).2 := by
    rw [htr, List.append_assoc, lastEvolveStatus_append,
      lastEvolveStatus_of_no_evolve _ (fun e he =>
        (initSegment_mem c solver sol outEvs hiw flog0 e he).1),
      statusAfter_none, lastEvolveStatus_append,
      statusAfter_of_no_evolve _ _ (fun e he => by
        obtain ⟨g, hg, rfl⟩ := List.mem_map.1 he
        simp [Event.isEvolve])]
  have hstat : (loopResult c solver sol flog0 (t1 :: ts)).1.status =
      lastEvolveStatus (loopResult c solver sol flog0 (t1 :: ts)).2 := by
    unfold loopResult
    rw [runLoop_status,
      show (initialLoopState c sol flog0).status = none from rfl,
      statusAfter_none]
  obtain ⟨tgt, st0, rest, hle⟩ := runLoop_head_evolve c solver
    (gaugeFilesOf sol) (initialLoopState c sol flog0) t1 ts hsty
  obtain ⟨st, hst⟩ : ∃ st,
      lastEvolveStatus (loopResult c solver sol flog0 (t1 :: ts)).2 =
        some st := by
    unfold loopResult
    rw [hle, lastEvolveStatus_cons_evolve]
    exact ⟨_, rfl⟩
  refine ⟨st, ?_, ?_⟩
  · rw [hseg, hst]
  · rw [hoc, hstat, hst]
    rfl

/-- Witness for C9: the two-point base run returns the status of its last
(and only) evolution call. -/
theorem C9_witness :
    ∃ st, lastEvolveStatus (run ctrlBase []).trace = some st ∧
      (run ctrlBase []).outcome = .ok (some st) :=
  C9_returns_last_evolve_status ctrlBase solverEx solEx [] 0 1 []
    [Event.writeSolution 0 "_output" none false false]
    rfl rfl (by decide) (by decide) (by decide) (Or.inl (by decide))

/-- C10: a configuration whose computed schedule has exactly one entry
passes the empty-schedule check (no halting report is printed), never
executes the loop body (no evolution at all), and `run` fails with the
`NameError` from `return status` instead of returning a status value. -/
theorem C10_singleton_schedule_name_error (c : Controller) (solver : Solver)
    (sol : Solution) (flog0 : List (ℚ × List ℚ)) (t0 : ℚ)
    (outEvs : List Event)
    (hs : c.solver = some solver) (hl : c.solution = some sol)
    (hv : check_validity c sol = .ok ())
    (hot : outputTimes c sol = .ok [t0])
    (hiw : initialWrites c sol.start_frame = .ok outEvs) :
    (run c flog0).outcome = .error .nameErrorStatus ∧
    (∀ e ∈ (run c flog0).trace, e.isEvolve = false) ∧
    Event.printMsg "No valid output times; halting." ∉ (run c flog0).trace := by
  have hoc := run_success_outcome c solver sol flog0 t0 [] outEvs hs hl hv hot hiw
  have htr := run_success_trace c solver sol flog0 t0 [] outEvs hs hl hv hot hiw
  refine ⟨?_, ?_, ?_⟩
  · rw [hoc]
    rfl
  · intro e he
    rw [htr] at he
    simp only [List.mem_append] at he
    rcases he with (he | he) | he
    · exact (initSegment_mem c solver sol outEvs hiw flog0 e he).1
    · simp [loopResult, runLoop] at he
    · obtain ⟨g, hg, rfl⟩ := List.mem_map.1 he
      simp [Event.isEvolve]
  · rw [htr]
    intro hmem
    simp only [List.mem_append] at hmem
    rcases hmem with (hm | hm) | hm
    · exact ((initSegment_mem c solver sol outEvs hiw flog0 _ hm).2.2 _) rfl
    · simp [loopResult, runLoop] at hm
    · obtain ⟨g, hg, h⟩ := List.mem_map.1 hm
      simp at h

/-- Witness for C10: style 1 with `num_output_times = 0` produces the
one-entry schedule `[0]`, and `run` raises the `NameError` without
printing the halting report. -/
theorem C10_witness :
    (run ctrlC10 []).outcome = .error .nameErrorStatus ∧
    Event.printMsg "No valid output times; halting." ∉ (run ctrlC10 []).trace := by
  obtain ⟨h1, -, h3⟩ := C10_singleton_schedule_name_error ctrlC10 solverEx
    solEx [] 0 [Event.writeSolution 0 "_output" none false false]
    rfl rfl (by decide) (by decide) (by decide)
  exact ⟨h1, h3⟩

end Pyclaw
